import Mathlib

/-!
Shallow embedding of `app/app/main.py`, a minimal retrieval-augmented-generation
question-answering script, together with theorems checking its natural-language
specification.

Modelling conventions, used throughout:
* LangChain documents are modelled by the single field the script reads,
  `page_content`.
* Calls into external libraries (the cross-encoder scorer, the FAISS
  similarity search, document loaders, the text splitter, the causal LM) are
  parameters of the embedded functions: the script only composes them.
* Machine floats returned by the cross-encoder only ever flow into
  `np.argsort`, so scores are embedded as integers: only their ordering
  matters to the program.
* `np.argsort` is embedded as an insertion sort of the index list
  `[0, ..., n-1]` by score; NumPy leaves the order of tied scores to the
  sorting kind, and any permutation that sorts the scores satisfies the
  theorems below.
* File names are lists of characters ('/' marking entries of subdirectories),
  so that the byte-level behaviour of `glob` and `os.path.splitext` can be
  embedded faithfully.
-/

namespace RagApp

/-- A LangChain document, reduced to the one field `main.py` reads. -/
structure Document where
  page_content : String
deriving DecidableEq

/-- Python `Union[type, str]`: the `bnb_4bit_compute_dtype` argument is either
a (named) Python type object or a string. -/
inductive DtypeArg
  | tp (name : String)
  | str (s : String)
deriving DecidableEq

/-- The `transformers.BitsAndBytesConfig` object, reduced to the four fields
`init_bnb_config` sets; the library constructor is embedded as plain record
creation (its own internal validation is delegated library behaviour). -/
structure BitsAndBytesConfig where
  load_in_4bit : Bool
  bnb_4bit_quant_type : String
  bnb_4bit_use_double_quant : Bool
  bnb_4bit_compute_dtype : DtypeArg
deriving DecidableEq

/-- `init_bnb_config` from `main.py` (lines 21-51) in its statically typed
reading: the four `isinstance` guards cannot fire on well-typed arguments, so
the function is the record constructor. -/
def init_bnb_config (load_in_4bit : Bool) (bnb_4bit_quant_type : String)
    (bnb_4bit_use_double_quant : Bool) (bnb_4bit_compute_dtype : DtypeArg) :
    BitsAndBytesConfig :=
  ⟨load_in_4bit, bnb_4bit_quant_type, bnb_4bit_use_double_quant, bnb_4bit_compute_dtype⟩

/-- The call `init_bnb_config()` as made by `query` and by the `__main__`
block: every argument takes its Python default value. -/
def init_bnb_config_defaults : BitsAndBytesConfig :=
  init_bnb_config true "nf4" true (.str "bfloat16")

/-- A dynamically typed Python value, discriminated exactly as far as the
`isinstance` guards of `init_bnb_config` look at it. -/
inductive PyVal
  | bool (b : Bool)
  | str (s : String)
  | tp (name : String)
  | int (n : Int)
  | noneVal
deriving DecidableEq

/-- Whether a `PyVal` satisfies `isinstance(x, bool)`. -/
def PyVal.isBool : PyVal → Bool
  | .bool _ => true
  | _ => false

/-- Whether a `PyVal` satisfies `isinstance(x, str)`. -/
def PyVal.isStr : PyVal → Bool
  | .str _ => true
  | _ => false

/-- Whether a `PyVal` satisfies `isinstance(x, type)`. -/
def PyVal.isTp : PyVal → Bool
  | .tp _ => true
  | _ => false

/-- A raised Python exception, as far as this script distinguishes them. -/
inductive PyError
  | valueError (msg : String)
deriving DecidableEq

/-- `init_bnb_config` from `main.py` (lines 21-51) with dynamically typed
arguments: the four `isinstance` guards in source order, each raising
`ValueError` with its message, then the `BitsAndBytesConfig` construction. -/
def init_bnb_config_checked (load_in_4bit bnb_4bit_quant_type
    bnb_4bit_use_double_quant bnb_4bit_compute_dtype : PyVal) :
    Except PyError BitsAndBytesConfig :=
  match load_in_4bit with
  | .bool b =>
    match bnb_4bit_quant_type with
    | .str qt =>
      match bnb_4bit_use_double_quant with
      | .bool dq =>
        match bnb_4bit_compute_dtype with
        | .tp t => .ok ⟨b, qt, dq, .tp t⟩
        | .str s => .ok ⟨b, qt, dq, .str s⟩
        | _ => .error (.valueError "bnb_4bit_compute_dtype must be a valid data type.")
      | _ => .error (.valueError "bnb_4bit_use_double_quant must be a boolean value.")
    | _ => .error (.valueError "bnb_4bit_quant_type must be a string.")
  | _ => .error (.valueError "load_in_4bit must be a boolean value.")

/-- Arguments of the `transformers.AutoModelForCausalLM.from_pretrained` call
in `init_model` (lines 72-79); `Cfg` is the opaque `AutoConfig` object. -/
structure ModelLoadArgs (Cfg : Type) where
  model_id : String
  trust_remote_code : Bool
  config : Cfg
  quantization_config : BitsAndBytesConfig
  device_map : String
  use_auth_token : Option String

/-- Arguments of the `transformers.pipeline` call in `init_model`
(lines 87-96). The two float arguments are embedded as rationals. -/
structure PipelineArgs (Model Tok : Type) where
  model : Model
  tokenizer : Tok
  return_full_text : Bool
  task : String
  temperature : Rat
  max_new_tokens : Nat
  repetition_penalty : Rat
  do_sample : Bool

/-- The `langchain.HuggingFacePipeline` wrapper built at line 98. -/
structure HuggingFacePipeline (Pipe : Type) where
  pipeline : Pipe

/-- `init_model` from `main.py` (lines 54-99). The library entry points
(`AutoConfig.from_pretrained`, `AutoModelForCausalLM.from_pretrained`,
`model.eval`, `AutoTokenizer.from_pretrained`, `transformers.pipeline`) are
parameters; the function only wires their results together. -/
def init_model {Cfg Model Tok Pipe : Type}
    (autoConfig : String → Option String → Cfg)
    (fromPretrained : ModelLoadArgs Cfg → Model)
    (evalMode : Model → Model)
    (autoTokenizer : String → Option String → Tok)
    (mkPipeline : PipelineArgs Model Tok → Pipe)
    (hf_auth : Option String)
    (bnb_config : BitsAndBytesConfig) (model_id : String) :
    HuggingFacePipeline Pipe :=
  let model_config := autoConfig model_id hf_auth
  let model := evalMode (fromPretrained
    ⟨model_id, true, model_config, bnb_config, "auto", hf_auth⟩)
  let tokenizer := autoTokenizer model_id hf_auth
  let generate_text := mkPipeline
    ⟨model, tokenizer, true, "text-generation", 1 / 100, 512, 11 / 10, true⟩
  ⟨generate_text⟩

/-- A file name, as a character list; a '/' separates path components, so a
name containing '/' denotes a file inside a subdirectory. -/
abbrev FileName := List Char

/-- The `file_extensions` list of `user_documents` (line 122). -/
def file_extensions : List (List Char) :=
  [".pdf".toList, ".docx".toList, ".doc".toList, ".txt".toList,
   ".xlsx".toList, ".pptx".toList]

/-- The loader classes appearing in the `loaders` dict of `user_documents`. -/
inductive Loader
  | pyPDFLoader
  | docx2txtLoader
  | textLoader
  | unstructuredExcelLoader
  | unstructuredPowerPointLoader
deriving DecidableEq

/-- The `loaders` dict of `user_documents` (lines 113-120), as the lookup
`loaders.get`: extension to loader class. -/
def loaders (ext : List Char) : Option Loader :=
  if ext = ".pdf".toList then some .pyPDFLoader
  else if ext = ".docx".toList then some .docx2txtLoader
  else if ext = ".doc".toList then some .docx2txtLoader
  else if ext = ".txt".toList then some .textLoader
  else if ext = ".xlsx".toList then some .unstructuredExcelLoader
  else if ext = ".pptx".toList then some .unstructuredPowerPointLoader
  else none

/-- Whether `glob.glob(os.path.join(directory, '*' + ext))` lists the entry
`name` of the directory: the pattern has a single `*` segment, so the match
never descends into subdirectories ('/' is not matched), `glob` skips hidden
entries (a leading '.' is not matched by `*`), and the literal tail `ext`
must be a suffix of the name. -/
def globMatch (ext : List Char) (name : FileName) : Bool :=
  (!name.any (fun c => c = '/')) && (!(name.head? == some '.'))
    && ext.isSuffixOf name

/-- The `files` list of `user_documents` (lines 123-125): for each of the six
extensions in order, the glob matches among the directory entries, in
directory order. -/
def globFiles (entries : List FileName) : List FileName :=
  (file_extensions.map (fun ext => entries.filter (globMatch ext))).flatten

/-- `os.path.splitext(file)[1]`: the extension of the last path component,
empty when the component has no dot or only leading dots before its last dot.
Embeds the CPython rule: the extension starts at the last dot, provided some
earlier character of the base name is not a dot. -/
def splitextExt (p : FileName) : List Char :=
  let bnRev := p.reverse.takeWhile (fun c => c ≠ '/')
  let afterRev := bnRev.takeWhile (fun c => c ≠ '.')
  if afterRev.length = bnRev.length then []
  else if (bnRev.drop (afterRev.length + 1)).any (fun c => c ≠ '.') then
    '.' :: afterRev.reverse
  else []

/-- `user_documents` from `main.py` (lines 102-135). The directory is the
list of its entries; `load` embeds `loaders[ext](file).load()` and
`split_documents` embeds `CharacterTextSplitter(...).split_documents`. The
loop accumulates `documents.extend(loader.load())` left to right over the
glob matches, skipping (vacuously, see `user_documents_spec`) files whose
`splitext` extension has no loader. -/
def user_documents (entries : List FileName)
    (load : Loader → FileName → List Document)
    (split_documents : List Document → List Document) : List Document :=
  let files := globFiles entries
  let documents := files.foldl (fun documents file =>
    match loaders (splitextExt file) with
    | some loader => documents ++ load loader file
    | none => documents) []
  split_documents documents

/-- `pre_rerank` from `main.py` (lines 138-147): pair the question with each
document page content. -/
def pre_rerank (docs : List Document) (question : String) :
    List (String × String) :=
  docs.map (fun data => (question, data.page_content))

/-- `np.argsort(scores)` (line 161): a permutation of `[0, ..., n-1]` listing
the indices of `scores` in ascending score order. -/
def argsort (scores : List Int) : List Nat :=
  List.insertionSort (fun i j => scores.getD i 0 ≤ scores.getD j 0)
    (List.range scores.length)

/-- `sorted_indices[-3:][::-1]` (line 163): the last `min 3 n` entries of the
ascending argsort, reversed, i.e. the indices of the top scores in descending
order. -/
def top3_indices (scores : List Int) : List Nat :=
  ((argsort scores).drop ((argsort scores).length - 3)).reverse

/-- `rerank` from `main.py` (lines 150-169). The cross-encoder
(`BAAI/bge-reranker-large` tokenizer + model, lines 151-159) is the
parameter `scoreFn`, producing one score per `[question, content]` pair; the
function then argsorts, selects the top three indices and concatenates their
contents into the context string. -/
def rerank (scoreFn : List (String × String) → List Int)
    (contents : List (String × String)) : String :=
  let scores := scoreFn contents
  (top3_indices scores).foldl
    (fun context index => context ++ (contents.getD index ("", "")).2) ""

/-- The `template` string built in `llm` (lines 179-183), by plain string
concatenation around the context and the question; whitespace is exactly
that of the source. The chain `{"question": RunnablePassthrough()} | prompt`
interpolates no variable (the template string contains none), so the prompt
handed to the model is this string, up to the fixed message framing the
LangChain chat-prompt machinery adds. -/
def template (context question : String) : String :=
  "Answer the question based only on the context,\n " ++ context ++
    " \n        \n        Question: " ++ question ++
    " \n        Answer in French:\n        "

/-- `llm` from `main.py` (lines 172-191). `data_base` embeds
`data_base.similarity_search` and `model` the LLM invocation
(`prompt | model | StrOutputParser()`). -/
def llm (scoreFn : List (String × String) → List Int) (question : String)
    (data_base : String → Nat → List Document)
    (model : String → String) : String :=
  let docs := data_base question 25
  let contents := pre_rerank docs question
  let context := rerank scoreFn contents
  model (template context question)

/-- `query` from `main.py` (lines 194-199): build the model, the embeddings,
the chunked documents and the FAISS index, then run `llm`. `DB` is the
opaque FAISS store; `fromDocuments` embeds `FAISS.from_documents` and
`search` its `similarity_search` method. -/
def query {Emb DB : Type}
    (model : String → String) (embeddings : Emb)
    (entries : List FileName)
    (load : Loader → FileName → List Document)
    (split_documents : List Document → List Document)
    (fromDocuments : List Document → Emb → DB)
    (search : DB → String → Nat → List Document)
    (scoreFn : List (String × String) → List Int)
    (q : String) : String :=
  let docs := user_documents entries load split_documents
  let db := fromDocuments docs embeddings
  llm scoreFn q (search db) model

/-- The `while` loop of the `__main__` block (lines 207-211) over the stream
of strings the user will type: stop on "exit" without touching the pipeline,
otherwise run `llm` on the input with the pre-built `data_base` and `model`,
record the printed result, and prompt again. An exhausted stream models
end-of-input (where `input()` raises and the loop dies). -/
def mainLoop (scoreFn : List (String × String) → List Int)
    (data_base : String → Nat → List Document)
    (model : String → String) : List String → List String
  | [] => []
  | q :: rest =>
    if q = "exit" then []
    else llm scoreFn q data_base model :: mainLoop scoreFn data_base model rest

/-- The loader loop of `user_documents` when library calls may raise: each
`loader.load()` either returns documents or raises, and a raise aborts the
loop (there is no `try` in `user_documents`), propagating the error. -/
def loadAllE {ε : Type} (load : Loader → FileName → Except ε (List Document)) :
    List FileName → Except ε (List Document)
  | [] => .ok []
  | file :: files =>
    match loaders (splitextExt file) with
    | some loader =>
      match load loader file with
      | .error e => .error e
      | .ok docs =>
        match loadAllE load files with
        | .error e => .error e
        | .ok rest => .ok (docs ++ rest)
    | none => loadAllE load files

/-- `user_documents` when library calls may raise: loader errors and splitter
errors propagate unchanged (the function has no handler). -/
def user_documentsE {ε : Type} (entries : List FileName)
    (load : Loader → FileName → Except ε (List Document))
    (split_documents : List Document → Except ε (List Document)) :
    Except ε (List Document) :=
  match loadAllE load (globFiles entries) with
  | .error e => .error e
  | .ok documents => split_documents documents

/-- `rerank` when the cross-encoder may raise: a raise in scoring aborts
`rerank` before any sorting happens (no handler in `rerank`). -/
def rerankE {ε : Type} (scoreFn : List (String × String) → Except ε (List Int))
    (contents : List (String × String)) : Except ε String :=
  match scoreFn contents with
  | .error e => .error e
  | .ok scores =>
    .ok ((top3_indices scores).foldl
      (fun context index => context ++ (contents.getD index ("", "")).2) "")

/-- `llm` when library calls may raise: errors of the similarity search, of
the cross-encoder and of the model invocation propagate unchanged (no
handler in `llm`). -/
def llmE {ε : Type} (scoreFn : List (String × String) → Except ε (List Int))
    (question : String)
    (data_base : String → Nat → Except ε (List Document))
    (model : String → Except ε String) : Except ε String :=
  match data_base question 25 with
  | .error e => .error e
  | .ok docs =>
    match rerankE scoreFn (pre_rerank docs question) with
    | .error e => .error e
    | .ok context => model (template context question)

/-- `query` when library calls may raise: each stage (model construction,
embeddings, document loading, index construction, the `llm` call) either
succeeds or aborts the whole call with its error (no handler in `query`). -/
def queryE {ε Model Emb DB : Type}
    (initModel : Except ε Model)
    (initEmbeddings : Except ε Emb)
    (entries : List FileName)
    (load : Loader → FileName → Except ε (List Document))
    (split_documents : List Document → Except ε (List Document))
    (fromDocuments : List Document → Emb → Except ε DB)
    (search : DB → String → Nat → Except ε (List Document))
    (scoreFn : List (String × String) → Except ε (List Int))
    (invoke : Model → String → Except ε String)
    (q : String) : Except ε String :=
  match initModel with
  | .error e => .error e
  | .ok model =>
    match initEmbeddings with
    | .error e => .error e
    | .ok embeddings =>
      match user_documentsE entries load split_documents with
      | .error e => .error e
      | .ok docs =>
        match fromDocuments docs embeddings with
        | .error e => .error e
        | .ok db => llmE scoreFn q (search db) (invoke model)

/-- The `__main__` loop when the pipeline may raise: an uncaught error in
`llm` aborts the loop (the `while` body has no handler), propagating the
error out of the program. -/
def mainLoopE {ε : Type} (pipeline : String → Except ε String) :
    List String → Except ε (List String)
  | [] => .ok []
  | q :: rest =>
    if q = "exit" then .ok []
    else
      match pipeline q with
      | .error e => .error e
      | .ok result =>
        match mainLoopE pipeline rest with
        | .error e => .error e
        | .ok results => .ok (result :: results)

/-! ### Properties of the argsort-based top-3 selection in `rerank` -/

theorem argsort_perm (scores : List Int) :
    (argsort scores).Perm (List.range scores.length) :=
  List.perm_insertionSort _ _

theorem argsort_length (scores : List Int) :
    (argsort scores).length = scores.length := by
  simpa using (argsort_perm scores).length_eq

theorem argsort_nodup (scores : List Int) : (argsort scores).Nodup :=
  ((argsort_perm scores).nodup_iff).mpr (List.nodup_range _)

theorem mem_argsort (scores : List Int) (i : Nat) :
    i ∈ argsort scores ↔ i < scores.length := by
  rw [(argsort_perm scores).mem_iff, List.mem_range]

theorem argsort_sorted (scores : List Int) :
    List.Sorted (fun i j => scores.getD i 0 ≤ scores.getD j 0) (argsort scores) := by
  haveI : IsTotal Nat (fun i j => scores.getD i 0 ≤ scores.getD j 0) :=
    ⟨fun a b => Int.le_total _ _⟩
  haveI : IsTrans Nat (fun i j => scores.getD i 0 ≤ scores.getD j 0) :=
    ⟨fun a b c hab hbc => le_trans hab hbc⟩
  exact List.sorted_insertionSort _ _

theorem mem_top3_indices (scores : List Int) (i : Nat) :
    i ∈ top3_indices scores ↔
      i ∈ (argsort scores).drop ((argsort scores).length - 3) := by
  rw [top3_indices, List.mem_reverse]

theorem top3_indices_length (scores : List Int) :
    (top3_indices scores).length = min 3 scores.length := by
  rw [top3_indices, List.length_reverse, List.length_drop, argsort_length]
  omega

theorem top3_indices_mem_lt (scores : List Int) {i : Nat}
    (h : i ∈ top3_indices scores) : i < scores.length := by
  rw [mem_top3_indices] at h
  exact (mem_argsort scores i).mp (List.mem_of_mem_drop h)

theorem top3_indices_nodup (scores : List Int) : (top3_indices scores).Nodup := by
  rw [top3_indices, List.nodup_reverse]
  exact List.Nodup.sublist (List.drop_sublist _ _) (argsort_nodup scores)

theorem top3_indices_sorted_desc (scores : List Int) :
    List.Sorted (fun i j => scores.getD j 0 ≤ scores.getD i 0)
      (top3_indices scores) := by
  have hd : List.Sorted (fun i j => scores.getD i 0 ≤ scores.getD j 0)
      ((argsort scores).drop ((argsort scores).length - 3)) :=
    List.Pairwise.sublist (List.drop_sublist _ _) (argsort_sorted scores)
  rw [top3_indices]
  exact (List.pairwise_reverse).mpr hd

theorem top3_indices_dominate (scores : List Int) {j i : Nat}
    (hj : j < scores.length) (hnot : j ∉ top3_indices scores)
    (hi : i ∈ top3_indices scores) :
    scores.getD j 0 ≤ scores.getD i 0 := by
  have hjmem : j ∈ argsort scores := (mem_argsort scores j).mpr hj
  rw [mem_top3_indices] at hnot hi
  have hjtake : j ∈ (argsort scores).take ((argsort scores).length - 3) := by
    have hjmem2 : j ∈ (argsort scores).take ((argsort scores).length - 3) ++
        (argsort scores).drop ((argsort scores).length - 3) := by
      rw [List.take_append_drop]; exact hjmem
    rcases List.mem_append.mp hjmem2 with h | h
    · exact h
    · exact absurd h hnot
  exact (argsort_sorted scores).rel_of_mem_take_of_mem_drop hjtake hi

theorem foldl_append_eq_join (f : Nat → String) (l : List Nat) :
    l.foldl (fun context index => context ++ f index) "" =
      String.join (l.map f) := by
  have h : String.join (l.map f) = (l.map f).foldl (fun r s => r ++ s) "" := rfl
  rw [h, List.foldl_map]

theorem rerank_eq_join (scoreFn : List (String × String) → List Int)
    (contents : List (String × String)) :
    rerank scoreFn contents =
      String.join ((top3_indices (scoreFn contents)).map
        (fun i => (contents.getD i ("", "")).2)) := by
  rw [rerank]
  exact foldl_append_eq_join _ _

/-! ### Properties of the glob-based file discovery in `user_documents` -/

theorem takeWhile_append_head_false {p : Char → Bool} {l₁ l₂ : List Char}
    (h₁ : ∀ c ∈ l₁, p c = true) {a : Char} (ha : p a = false) :
    (l₁ ++ a :: l₂).takeWhile p = l₁ := by
  induction l₁ with
  | nil => simp [List.takeWhile_cons, ha]
  | cons c l ih =>
    rw [List.cons_append, List.takeWhile_cons, h₁ c (by simp)]
    rw [ih (fun x hx => h₁ x (by simp [hx]))]
    simp

theorem splitextExt_of_suffix {rest f : List Char}
    (hrd : ∀ c ∈ rest, c ≠ '.')
    (hsuf : ('.' :: rest) <:+ f)
    (hh : f.head? ≠ some '.')
    (hns : ∀ c ∈ f, c ≠ '/') :
    splitextExt f = '.' :: rest := by
  obtain ⟨s, hs⟩ := hsuf
  have hsne : s ≠ [] := by
    intro h
    subst h
    rw [List.nil_append] at hs
    rw [← hs] at hh
    simp at hh
  obtain ⟨c0, s2, hc⟩ := List.exists_cons_of_ne_nil hsne
  have hc0 : c0 ≠ '.' := by
    intro h
    apply hh
    rw [← hs, hc, h]
    rfl
  have hrev : f.reverse = rest.reverse ++ '.' :: s.reverse := by
    rw [← hs, List.reverse_append, List.reverse_cons, List.append_assoc]
    simp
  have hbn : f.reverse.takeWhile (fun c => c ≠ '/') = f.reverse := by
    rw [List.takeWhile_eq_self_iff]
    intro x hx
    simp only [decide_eq_true_eq]
    exact hns x (List.mem_reverse.mp hx)
  have hafter : (f.reverse).takeWhile (fun c => c ≠ '.') = rest.reverse := by
    rw [hrev]
    apply takeWhile_append_head_false
    · intro c hcm
      simp only [decide_eq_true_eq]
      exact hrd c (List.mem_reverse.mp hcm)
    · simp
  have hlen : (rest.reverse).length ≠ (f.reverse).length := by
    rw [hrev]
    simp [List.length_append]
  have hdrop : (f.reverse).drop ((rest.reverse).length + 1) = s.reverse := by
    rw [hrev]
    have h2 : rest.reverse ++ '.' :: s.reverse =
        (rest.reverse ++ ['.']) ++ s.reverse := by
      rw [List.append_assoc]; rfl
    rw [h2]
    have h3 : (rest.reverse).length + 1 = (rest.reverse ++ ['.']).length := by
      simp
    rw [h3, List.drop_left]
  have hany : (s.reverse).any (fun c => c ≠ '.') = true := by
    rw [List.any_eq_true]
    exact ⟨c0, List.mem_reverse.mpr (by rw [hc]; exact List.mem_cons_self _ _),
      by simp [hc0]⟩
  rw [splitextExt]
  simp only [hbn, hafter, hlen, if_false, hdrop, hany, if_true,
    List.reverse_reverse]

theorem globMatch_iff {ext : List Char} {f : FileName} :
    globMatch ext f = true ↔
      (∀ c ∈ f, c ≠ '/') ∧ f.head? ≠ some '.' ∧ ext <:+ f := by
  rw [globMatch, Bool.and_eq_true, Bool.and_eq_true]
  constructor
  · rintro ⟨⟨hns, hh⟩, hsuf⟩
    refine ⟨?_, ?_, List.isSuffixOf_iff_suffix.mp hsuf⟩
    · intro c hcm
      rw [Bool.not_eq_true', List.any_eq_false] at hns
      simpa using hns c hcm
    · rw [Bool.not_eq_true'] at hh
      exact beq_eq_false_iff_ne.mp hh
  · rintro ⟨hns, hh, hsuf⟩
    refine ⟨⟨?_, ?_⟩, List.isSuffixOf_iff_suffix.mpr hsuf⟩
    · rw [Bool.not_eq_true', List.any_eq_false]
      intro c hcm
      simpa using hns c hcm
    · rw [Bool.not_eq_true']
      exact beq_eq_false_iff_ne.mpr hh

theorem splitextExt_of_globMatch {ext : List Char} {f : FileName}
    (hext : ext ∈ file_extensions) (hm : globMatch ext f = true) :
    splitextExt f = ext := by
  obtain ⟨hns, hh, hsuf⟩ := globMatch_iff.mp hm
  simp only [file_extensions, List.mem_cons, List.not_mem_nil, or_false] at hext
  rcases hext with h | h | h | h | h | h <;> subst h <;>
    exact splitextExt_of_suffix (by decide) hsuf hh hns

theorem mem_globFiles {entries : List FileName} {f : FileName} :
    f ∈ globFiles entries ↔
      f ∈ entries ∧ ∃ ext ∈ file_extensions, globMatch ext f = true := by
  rw [globFiles, List.mem_flatten]
  constructor
  · rintro ⟨l, hl, hfl⟩
    rw [List.mem_map] at hl
    obtain ⟨ext, hexm, hle⟩ := hl
    rw [← hle, List.mem_filter] at hfl
    exact ⟨hfl.1, ext, hexm, hfl.2⟩
  · rintro ⟨hfe, ext, hexm, hgm⟩
    exact ⟨entries.filter (globMatch ext),
      List.mem_map.mpr ⟨ext, hexm, rfl⟩, List.mem_filter.mpr ⟨hfe, hgm⟩⟩

theorem foldl_extend_eq_flatten (g : FileName → List Document)
    (l : List FileName) (init : List Document) :
    l.foldl (fun documents file => documents ++ g file) init =
      init ++ (l.map g).flatten := by
  induction l generalizing init with
  | nil => simp
  | cons f fs ih =>
    rw [List.foldl_cons, ih, List.map_cons, List.flatten_cons, List.append_assoc]

/-! ### Claim theorems -/

/-- C1: for every non-empty list of `[question, page_content]` pairs with one
score per pair, `rerank` returns exactly the concatenation of the
`page_content` fields of the `min 3 n` highest-scoring pairs, taken in
descending score order: the selected indices are distinct, in bounds, their
scores descend, and every unselected pair scores no higher than any selected
one; no other transformation is applied to the selected contents. -/
theorem rerank_returns_top3_descending
    (scoreFn : List (String × String) → List Int)
    (contents : List (String × String))
    (_hne : contents ≠ [])
    (hlen : (scoreFn contents).length = contents.length) :
    rerank scoreFn contents =
      String.join ((top3_indices (scoreFn contents)).map
        (fun i => (contents.getD i ("", "")).2)) ∧
    (top3_indices (scoreFn contents)).length = min 3 contents.length ∧
    (top3_indices (scoreFn contents)).Nodup ∧
    (∀ i ∈ top3_indices (scoreFn contents), i < contents.length) ∧
    List.Sorted (fun a b : Int => b ≤ a)
      ((top3_indices (scoreFn contents)).map
        (fun i => (scoreFn contents).getD i 0)) ∧
    (∀ j < contents.length, j ∉ top3_indices (scoreFn contents) →
      ∀ i ∈ top3_indices (scoreFn contents),
        (scoreFn contents).getD j 0 ≤ (scoreFn contents).getD i 0) := by
  refine ⟨rerank_eq_join scoreFn contents, ?_, top3_indices_nodup _, ?_, ?_, ?_⟩
  · rw [top3_indices_length, hlen]
  · intro i hi
    rw [← hlen]
    exact top3_indices_mem_lt _ hi
  · exact List.Pairwise.map _ (fun a b h => h) (top3_indices_sorted_desc _)
  · intro j hj hnot i hi
    exact top3_indices_dominate _ (hlen ▸ hj) hnot hi

/-- Witness for C1 at a concrete input: four pairs scored `[3, 1, 4, 2]`
produce the contents of the pairs scored 4, 3, 2 in that order. -/
theorem rerank_returns_top3_descending_witness :
    rerank (fun _ => [3, 1, 4, 2])
      [("q", "a"), ("q", "b"), ("q", "c"), ("q", "d")] = "cad" := by
  have h := rerank_returns_top3_descending (fun _ => [3, 1, 4, 2])
    [("q", "a"), ("q", "b"), ("q", "c"), ("q", "d")] (by decide) (by decide)
  rw [h.1]
  decide

/-- C9: the top-3 selection of `rerank` never indexes out of bounds: with one
score per pair, every index in `sorted_indices[-3:][::-1]` is a valid index
into `contents`, and a list of fewer than three pairs is selected whole. -/
theorem rerank_top3_selection_safe (scores : List Int)
    (contents : List (String × String))
    (_hne : contents ≠ [])
    (hlen : scores.length = contents.length) :
    (∀ i ∈ top3_indices scores, i < contents.length) ∧
    (contents.length < 3 →
      (top3_indices scores).length = contents.length ∧
      ∀ j < contents.length, j ∈ top3_indices scores) := by
  constructor
  · intro i hi
    rw [← hlen]
    exact top3_indices_mem_lt _ hi
  · intro hlt
    constructor
    · rw [top3_indices_length, hlen]
      omega
    · intro j hj
      rw [mem_top3_indices]
      have h0 : (argsort scores).length - 3 = 0 := by
        rw [argsort_length]
        omega
      rw [h0, List.drop_zero, mem_argsort, hlen]
      exact hj

/-- Witness for C9 at a concrete input: with two pairs both indices 0 and 1
are selected and both are in bounds. -/
theorem rerank_top3_selection_safe_witness :
    (∀ i ∈ top3_indices [5, 7], i < 2) ∧
    0 ∈ top3_indices [5, 7] ∧ 1 ∈ top3_indices [5, 7] := by
  have h := rerank_top3_selection_safe [5, 7] [("q", "a"), ("q", "b")]
    (by decide) (by decide)
  exact ⟨h.1, (h.2 (by decide)).2 0 (by decide), (h.2 (by decide)).2 1 (by decide)⟩

/-- C8: `pre_rerank` maps an `n`-document list to an `n`-element list whose
`i`-th element is the pair of the question and the `i`-th document's page
content, in order; as a pure function it leaves the input list untouched. -/
theorem pre_rerank_pairs_question_with_contents (docs : List Document)
    (question : String) :
    (pre_rerank docs question).length = docs.length ∧
    ∀ i : Nat, (pre_rerank docs question)[i]? =
      (docs[i]?).map (fun data => (question, data.page_content)) := by
  constructor
  · rw [pre_rerank, List.length_map]
  · intro i
    rw [pre_rerank, List.getElem?_map]

theorem rerank_context_pieces (scoreFn : List (String × String) → List Int)
    (docs : List Document) (q : String)
    (hlen : (scoreFn (pre_rerank docs q)).length = docs.length) :
    ∃ pieces : List String,
      rerank scoreFn (pre_rerank docs q) = String.join pieces ∧
      ∀ p ∈ pieces, p ∈ docs.map Document.page_content := by
  refine ⟨(top3_indices (scoreFn (pre_rerank docs q))).map
    (fun i => ((pre_rerank docs q).getD i ("", "")).2),
    rerank_eq_join _ _, ?_⟩
  intro p hp
  rw [List.mem_map] at hp
  obtain ⟨i, hi, hpe⟩ := hp
  have hilt : i < docs.length := by
    have h := top3_indices_mem_lt _ hi
    rwa [hlen] at h
  have hsome : docs[i]? = some docs[i] := List.getElem?_eq_getElem hilt
  have hgd : (pre_rerank docs q).getD i ("", "") = (q, docs[i].page_content) := by
    rw [List.getD_eq_getElem?_getD, pre_rerank, List.getElem?_map, hsome]
    rfl
  rw [← hpe, hgd]
  exact List.mem_map_of_mem _ (List.getElem_mem hilt)

/-- C2: `llm` retrieves 25 candidates from the vector store, reranks them,
and hands the model a prompt equal to the fixed template text around the
reranked context and the question; the context itself is a concatenation of
page contents of retrieved documents only, so no other document content
reaches the model. -/
theorem llm_pipeline_order (scoreFn : List (String × String) → List Int)
    (data_base : String → Nat → List Document)
    (model : String → String) (question : String)
    (hlen : (scoreFn (pre_rerank (data_base question 25) question)).length =
      (data_base question 25).length) :
    llm scoreFn question data_base model =
      model ("Answer the question based only on the context,\n " ++
        rerank scoreFn (pre_rerank (data_base question 25) question) ++
        " \n        \n        Question: " ++ question ++
        " \n        Answer in French:\n        ") ∧
    ∃ pieces : List String,
      rerank scoreFn (pre_rerank (data_base question 25) question) =
        String.join pieces ∧
      ∀ p ∈ pieces, p ∈ (data_base question 25).map Document.page_content :=
  ⟨rfl, rerank_context_pieces scoreFn (data_base question 25) question hlen⟩

/-- Witness for C2 at a concrete input: with an identity model the output is
exactly the template around the reranked context. -/
theorem llm_pipeline_order_witness :
    llm (fun contents => contents.map (fun _ => 0)) "ok"
      (fun _ _ => [⟨"alpha"⟩, ⟨"beta"⟩]) (fun prompt => prompt) =
      "Answer the question based only on the context,\n " ++
        rerank (fun contents => contents.map (fun _ => 0))
          (pre_rerank [⟨"alpha"⟩, ⟨"beta"⟩] "ok") ++
        " \n        \n        Question: " ++ "ok" ++
        " \n        Answer in French:\n        " :=
  (llm_pipeline_order (fun contents => contents.map (fun _ => 0))
    (fun _ _ => [⟨"alpha"⟩, ⟨"beta"⟩]) (fun prompt => prompt) "ok"
    (by rw [pre_rerank, List.length_map, List.length_map])).1

theorem takeWhile_all_self {α : Type} (p : α → Bool) (l : List α) :
    (l.takeWhile p).all p = true := by
  induction l with
  | nil => rfl
  | cons a l ih =>
    rw [List.takeWhile_cons]
    by_cases h : p a = true <;> simp [h, ih]

/-- C4: the CLI loop runs the pipeline exactly once, in order, on every input
before the first "exit" (printing each result) and never submits "exit"
itself: the submitted queries are `takeWhile (· ≠ "exit")` of the input
stream, all of them differ from "exit", and every invocation uses the same
`data_base` and `model` built once before the loop (they are fixed
parameters of every iteration). -/
theorem main_loop_exit_behaviour (scoreFn : List (String × String) → List Int)
    (data_base : String → Nat → List Document)
    (model : String → String) (inputs : List String) :
    mainLoop scoreFn data_base model inputs =
      (inputs.takeWhile (fun q => q != "exit")).map
        (fun q => llm scoreFn q data_base model) ∧
    (inputs.takeWhile (fun q => q != "exit")).all (fun q => q != "exit") = true := by
  constructor
  · induction inputs with
    | nil => rfl
    | cons q rest ih =>
      by_cases hq : q = "exit"
      · subst hq
        rw [mainLoop, if_pos rfl, List.takeWhile_cons]
        simp
      · rw [mainLoop, if_neg hq, List.takeWhile_cons]
        have hb : (q != "exit") = true := by simp [hq]
        rw [hb, ih]
        rfl
  · exact takeWhile_all_self _ _

/-- C3, counterexample: the hidden file `.secret.txt` lies directly in the
directory and its name ends in ".txt", yet `user_documents` (whose `glob`
patterns `*.<ext>` skip names with a leading dot) never loads it: with a
loader producing a document and an identity splitter the result is empty,
refuting "selects exactly the files ... whose names end in one of the six
extensions". -/
theorem user_documents_hidden_txt_counterexample :
    (".secret.txt".toList.any (fun c => c = '/') = false) ∧
    (".txt".toList.isSuffixOf ".secret.txt".toList = true) ∧
    user_documents [".secret.txt".toList]
      (fun _ _ => [⟨"loaded text"⟩]) (fun documents => documents) = [] := by
  decide

/-- C3 as amended: file discovery selects exactly the non-hidden entries
directly inside the directory (no '/' in the name, no leading dot) whose
names end in one of the six extensions; every selected file has
`os.path.splitext` extension equal to that matching extension, which the
`loaders` dict maps to a loader class; and the returned chunk list is the
splitter applied to the concatenated loads of exactly the selected files, so
files with any other extension (or hidden files) contribute nothing. -/
theorem user_documents_selection_spec (entries : List FileName)
    (load : Loader → FileName → List Document)
    (split_documents : List Document → List Document) :
    user_documents entries load split_documents =
      split_documents (((globFiles entries).map (fun f =>
        match loaders (splitextExt f) with
        | some loader => load loader f
        | none => [])).flatten) ∧
    (∀ f, f ∈ globFiles entries ↔
      f ∈ entries ∧ (∀ c ∈ f, c ≠ '/') ∧ f.head? ≠ some '.' ∧
        ∃ ext ∈ file_extensions, ext <:+ f) ∧
    (∀ f ∈ globFiles entries, ∃ ext ∈ file_extensions,
      ext <:+ f ∧ splitextExt f = ext ∧
      ∃ loader, loaders ext = some loader) := by
  refine ⟨?_, ?_, ?_⟩
  · rw [user_documents]
    have hbody : (fun (documents : List Document) (file : FileName) =>
        match loaders (splitextExt file) with
        | some loader => documents ++ load loader file
        | none => documents) =
        (fun (documents : List Document) (file : FileName) =>
          documents ++ (match loaders (splitextExt file) with
          | some loader => load loader file
          | none => [])) := by
      funext documents file
      cases loaders (splitextExt file) <;> simp
    rw [hbody, foldl_extend_eq_flatten, List.nil_append]
  · intro f
    rw [mem_globFiles]
    constructor
    · rintro ⟨hfe, ext, hexm, hgm⟩
      obtain ⟨hns, hh, hsuf⟩ := globMatch_iff.mp hgm
      exact ⟨hfe, hns, hh, ext, hexm, hsuf⟩
    · rintro ⟨hfe, hns, hh, ext, hexm, hsuf⟩
      exact ⟨hfe, ext, hexm, globMatch_iff.mpr ⟨hns, hh, hsuf⟩⟩
  · intro f hf
    obtain ⟨_, ext, hexm, hgm⟩ := mem_globFiles.mp hf
    refine ⟨ext, hexm, (globMatch_iff.mp hgm).2.2,
      splitextExt_of_globMatch hexm hgm, ?_⟩
    simp only [file_extensions, List.mem_cons, List.not_mem_nil, or_false] at hexm
    rcases hexm with h | h | h | h | h | h <;> subst h <;>
      exact ⟨_, rfl⟩

/-- Witness for the amended C3 at a concrete input: of the entries `a.txt`
and `notes.md`, only `a.txt` is discovered and loaded. -/
theorem user_documents_selection_spec_witness :
    user_documents ["a.txt".toList, "notes.md".toList]
        (fun _ f => [⟨String.mk f⟩]) (fun documents => documents) =
      [⟨"a.txt"⟩] ∧
    "a.txt".toList ∈ globFiles ["a.txt".toList, "notes.md".toList] := by
  have h := user_documents_selection_spec ["a.txt".toList, "notes.md".toList]
    (fun _ f => [⟨String.mk f⟩]) (fun documents => documents)
  constructor
  · rw [h.1]
    decide
  · exact (h.2.1 ("a.txt".toList)).mpr
      ⟨by decide, by decide, by decide, ".txt".toList, by decide,
        "a".toList, by decide⟩

/-- C6: `init_model` passes its `BitsAndBytesConfig` argument unchanged as
the `quantization_config` of the single `from_pretrained` call and performs
no quantization arithmetic of its own (the model construction is exactly the
composition of the library entry points on the given arguments); and the
configuration produced by `init_bnb_config` at its defaults is 4-bit loading
enabled, quantization type "nf4", double quantization enabled, compute dtype
the string "bfloat16". -/
theorem init_model_delegates_quantization {Cfg Model Tok Pipe : Type}
    (autoConfig : String → Option String → Cfg)
    (fromPretrained : ModelLoadArgs Cfg → Model)
    (evalMode : Model → Model)
    (autoTokenizer : String → Option String → Tok)
    (mkPipeline : PipelineArgs Model Tok → Pipe)
    (hf_auth : Option String)
    (bnb_config : BitsAndBytesConfig) (model_id : String) :
    init_model autoConfig fromPretrained evalMode autoTokenizer mkPipeline
        hf_auth bnb_config model_id =
      ⟨mkPipeline ⟨evalMode (fromPretrained
          ⟨model_id, true, autoConfig model_id hf_auth,
            bnb_config, "auto", hf_auth⟩),
        autoTokenizer model_id hf_auth, true, "text-generation",
        1 / 100, 512, 11 / 10, true⟩⟩ ∧
    init_bnb_config_defaults = ⟨true, "nf4", true, .str "bfloat16"⟩ :=
  ⟨rfl, rfl⟩

/-- C7: the dynamically typed `init_bnb_config` raises `ValueError` exactly
when one of its arguments is ill-typed (first argument or third argument not
a bool, second not a string, fourth neither a type nor a string); on
well-typed arguments it returns a configuration and raises nothing, and at
the Python defaults it returns the default configuration. -/
theorem init_bnb_config_valueError_iff
    (load_in_4bit bnb_4bit_quant_type bnb_4bit_use_double_quant
      bnb_4bit_compute_dtype : PyVal) :
    ((∃ msg, init_bnb_config_checked load_in_4bit bnb_4bit_quant_type
        bnb_4bit_use_double_quant bnb_4bit_compute_dtype =
          .error (.valueError msg)) ↔
      ¬(load_in_4bit.isBool = true ∧ bnb_4bit_quant_type.isStr = true ∧
        bnb_4bit_use_double_quant.isBool = true ∧
        (bnb_4bit_compute_dtype.isTp = true ∨
          bnb_4bit_compute_dtype.isStr = true))) ∧
    ((load_in_4bit.isBool = true ∧ bnb_4bit_quant_type.isStr = true ∧
        bnb_4bit_use_double_quant.isBool = true ∧
        (bnb_4bit_compute_dtype.isTp = true ∨
          bnb_4bit_compute_dtype.isStr = true)) →
      ∃ cfg, init_bnb_config_checked load_in_4bit bnb_4bit_quant_type
        bnb_4bit_use_double_quant bnb_4bit_compute_dtype = .ok cfg) ∧
    init_bnb_config_checked (.bool true) (.str "nf4") (.bool true)
        (.str "bfloat16") = .ok init_bnb_config_defaults := by
  refine ⟨?_, ?_, rfl⟩ <;>
    cases load_in_4bit <;> cases bnb_4bit_quant_type <;>
      cases bnb_4bit_use_double_quant <;> cases bnb_4bit_compute_dtype <;>
        simp [init_bnb_config_checked, PyVal.isBool, PyVal.isStr, PyVal.isTp]

/-- Witness for C7 at concrete inputs: an integer first argument raises
`ValueError`, and fully well-typed non-default arguments return a
configuration. -/
theorem init_bnb_config_valueError_iff_witness :
    (∃ msg, init_bnb_config_checked (.int 1) (.str "nf4") (.bool true)
        (.str "bfloat16") = .error (.valueError msg)) ∧
    (∃ cfg, init_bnb_config_checked (.bool false) (.str "fp4") (.bool false)
        (.tp "float16") = .ok cfg) :=
  ⟨(init_bnb_config_valueError_iff (.int 1) (.str "nf4") (.bool true)
      (.str "bfloat16")).1.mpr (by decide),
    (init_bnb_config_valueError_iff (.bool false) (.str "fp4") (.bool false)
      (.tp "float16")).2.1 (by decide)⟩

/-- C5: no operation recovers from a failure: in `user_documents` a raising
loader or splitter aborts the call with that error; in `rerank` a raising
cross-encoder does; in `llm` a raising similarity search or model invocation
does; in `query` a failure of the document-loading stage aborts the whole
call; and in the CLI loop a raising pipeline aborts the loop — in every case
the library error reaches the caller unchanged, with no retry and no
fallback result. -/
theorem no_failure_recovery :
    (∀ (ε : Type) (entries : List FileName)
        (load : Loader → FileName → Except ε (List Document))
        (split_documents : List Document → Except ε (List Document))
        (e : ε) (file : FileName) (files : List FileName) (loader : Loader),
      globFiles entries = file :: files →
      loaders (splitextExt file) = some loader →
      load loader file = .error e →
      user_documentsE entries load split_documents = .error e) ∧
    (∀ (ε : Type) (entries : List FileName)
        (load : Loader → FileName → Except ε (List Document))
        (split_documents : List Document → Except ε (List Document))
        (documents : List Document) (e : ε),
      loadAllE load (globFiles entries) = .ok documents →
      split_documents documents = .error e →
      user_documentsE entries load split_documents = .error e) ∧
    (∀ (ε : Type) (scoreFn : List (String × String) → Except ε (List Int))
        (contents : List (String × String)) (e : ε),
      scoreFn contents = .error e →
      rerankE scoreFn contents = .error e) ∧
    (∀ (ε : Type) (scoreFn : List (String × String) → Except ε (List Int))
        (data_base : String → Nat → Except ε (List Document))
        (model : String → Except ε String) (q : String) (e : ε),
      data_base q 25 = .error e →
      llmE scoreFn q data_base model = .error e) ∧
    (∀ (ε : Type) (scoreFn : List (String × String) → Except ε (List Int))
        (data_base : String → Nat → Except ε (List Document))
        (model : String → Except ε String) (q : String)
        (docs : List Document) (context : String) (e : ε),
      data_base q 25 = .ok docs →
      rerankE scoreFn (pre_rerank docs q) = .ok context →
      model (template context q) = .error e →
      llmE scoreFn q data_base model = .error e) ∧
    (∀ (ε Model Emb DB : Type) (initModel : Except ε Model)
        (initEmbeddings : Except ε Emb) (entries : List FileName)
        (load : Loader → FileName → Except ε (List Document))
        (split_documents : List Document → Except ε (List Document))
        (fromDocuments : List Document → Emb → Except ε DB)
        (search : DB → String → Nat → Except ε (List Document))
        (scoreFn : List (String × String) → Except ε (List Int))
        (invoke : Model → String → Except ε String)
        (q : String) (model : Model) (emb : Emb) (e : ε),
      initModel = .ok model →
      initEmbeddings = .ok emb →
      user_documentsE entries load split_documents = .error e →
      queryE initModel initEmbeddings entries load split_documents
        fromDocuments search scoreFn invoke q = .error e) ∧
    (∀ (ε : Type) (pipeline : String → Except ε String)
        (q : String) (rest : List String) (e : ε),
      q ≠ "exit" →
      pipeline q = .error e →
      mainLoopE pipeline (q :: rest) = .error e) := by
  refine ⟨?_, ?_, ?_, ?_, ?_, ?_, ?_⟩
  · intro ε entries load split_documents e file files loader hglob hloader hload
    simp only [user_documentsE, hglob, loadAllE, hloader, hload]
  · intro ε entries load split_documents documents e hloads hsplit
    simp only [user_documentsE, hloads, hsplit]
  · intro ε scoreFn contents e hscore
    rw [rerankE, hscore]
  · intro ε scoreFn data_base model q e hsearch
    rw [llmE, hsearch]
  · intro ε scoreFn data_base model q docs context e hsearch hscore hmodel
    simp only [llmE, hsearch, hscore, hmodel]
  · intro ε Model Emb DB initModel initEmbeddings entries load split_documents
      fromDocuments search scoreFn invoke q model emb e hmodel hemb hdocs
    simp only [queryE, hmodel, hemb, hdocs]
  · intro ε pipeline q rest e hq hpipe
    rw [mainLoopE, if_neg hq, hpipe]

/-- Witness for C5 at concrete inputs: a loader error, a splitter error, a
scorer error, a search error, a model error, a loading error inside `query`,
and a pipeline error inside the loop each surface unchanged. -/
theorem no_failure_recovery_witness :
    user_documentsE ["a.txt".toList]
        (fun _ _ => .error "loader failed")
        (fun documents => .ok documents) = .error "loader failed" ∧
    user_documentsE ["a.txt".toList]
        (fun _ _ => .ok [⟨"chunk"⟩])
        (fun _ => .error "splitter failed") = .error "splitter failed" ∧
    rerankE (fun _ => .error "scorer failed") [("q", "a")] =
      .error "scorer failed" ∧
    llmE (fun _ => .ok [0]) "q" (fun _ _ => .error "search failed")
      (fun _ => .ok "answer") = .error "search failed" ∧
    llmE (fun _ => .ok []) "q" (fun _ _ => .ok [])
      (fun _ => .error "model failed") = .error "model failed" ∧
    @queryE String Nat Nat Nat (.ok (0 : Nat)) (.ok (0 : Nat)) ["a.txt".toList]
      (fun _ _ => .error "loader failed") (fun documents => .ok documents)
      (fun _ _ => .ok 0) (fun _ _ _ => .ok []) (fun _ => .ok [])
      (fun _ _ => .ok "answer") "q" = .error "loader failed" ∧
    mainLoopE (fun _ => (.error "pipeline failed" : Except String String))
      ["hello"] = .error "pipeline failed" := by
  refine ⟨?_, ?_, ?_, ?_, ?_, ?_, ?_⟩
  · exact no_failure_recovery.1 String ["a.txt".toList] _ _ "loader failed"
      ("a.txt".toList) [] Loader.textLoader (by decide) (by decide) rfl
  · exact no_failure_recovery.2.1 String ["a.txt".toList] _ _ [⟨"chunk"⟩]
      "splitter failed" rfl rfl
  · exact no_failure_recovery.2.2.1 String _ [("q", "a")] "scorer failed" rfl
  · exact no_failure_recovery.2.2.2.1 String _ _ _ "q" "search failed" rfl
  · exact no_failure_recovery.2.2.2.2.1 String _ _ _ "q" [] "" "model failed"
      rfl rfl rfl
  · exact no_failure_recovery.2.2.2.2.2.1 String Nat Nat Nat _ _
      ["a.txt".toList] _ _ _ _ _ _ "q" 0 0 "loader failed" rfl rfl rfl
  · exact no_failure_recovery.2.2.2.2.2.2 String _ "hello" [] "pipeline failed"
      (by decide) rfl

end RagApp
